import Mathlib

/-!
Verification of the chat application in src/main.py: a shallow embedding of
its credential handling, message persistence, retrieval-augmentation and
session flow, with theorems settling the specification claims.

Machine integers do not occur in the source (Python); byte and 32-bit word
arithmetic inside the password digest is embedded as Nat with explicit
reductions modulo 2 ^ 32. The MongoDB collections are embedded as lists in
insertion order: insert_one appends, find filters preserving insertion
order, sort is a stable sort on the timestamp field, find_one returns the
first match. The full-text-search predicate of the store (the Mongo text
operator) is external-collaborator behaviour and is a parameter `tmatch`
of every operation that queries it. The external model call is a parameter
`send` returning either a reply text or a failure description.
-/

/-! ## SHA-256 (hashlib.sha256, used by hash_password in src/main.py line 66)

The digest is computed over the UTF-8 encoding of the password and rendered
as the 64-character lowercase hexadecimal string, exactly as
hashlib.sha256(password.encode()).hexdigest() does. All words are Nat,
reduced modulo 2 ^ 32 where the algorithm wraps. -/

/-- Rotate a 32-bit word (a Nat below 2 ^ 32) right by n bits. -/
def rotr (n x : Nat) : Nat := (x >>> n) + (x % 2 ^ n) * 2 ^ (32 - n)

def bigSigma0 (x : Nat) : Nat := rotr 2 x ^^^ rotr 13 x ^^^ rotr 22 x

def bigSigma1 (x : Nat) : Nat := rotr 6 x ^^^ rotr 11 x ^^^ rotr 25 x

def smallSigma0 (x : Nat) : Nat := rotr 7 x ^^^ rotr 18 x ^^^ (x >>> 3)

def smallSigma1 (x : Nat) : Nat := rotr 17 x ^^^ rotr 19 x ^^^ (x >>> 10)

/-- The 64 SHA-256 round constants of FIPS 180-4, in decimal. -/
def K256 : List Nat :=
  [1116352408, 1899447441, 3049323471, 3921009573, 961987163, 1508970993,
   2453635748, 2870763221, 3624381080, 310598401, 607225278, 1426881987,
   1925078388, 2162078206, 2614888103, 3248222580, 3835390401, 4022224774,
   264347078, 604807628, 770255983, 1249150122, 1555081692, 1996064986,
   2554220882, 2821834349, 2952996808, 3210313671, 3336571891, 3584528711,
   113926993, 338241895, 666307205, 773529912, 1294757372, 1396182291,
   1695183700, 1986661051, 2177026350, 2456956037, 2730485921, 2820302411,
   3259730800, 3345764771, 3516065817, 3600352804, 4094571909, 275423344,
   430227734, 506948616, 659060556, 883997877, 958139571, 1322822218,
   1537002063, 1747873779, 1955562222, 2024104815, 2227730452, 2361852424,
   2428436474, 2756734187, 3204031479, 3329325298]

/-- The eight 32-bit working variables of the SHA-256 state. -/
structure Digest where
  e0 : Nat
  e1 : Nat
  e2 : Nat
  e3 : Nat
  e4 : Nat
  e5 : Nat
  e6 : Nat
  e7 : Nat
deriving DecidableEq

/-- The eight SHA-256 initial hash values of FIPS 180-4, in decimal. -/
def initialDigest : Digest :=
  ⟨1779033703, 3144134277, 1013904242, 2773480762, 1359893119, 2600822924, 528734635, 1541459225⟩

/-- One SHA-256 compression round; kw is the pair of round constant and
schedule word. -/
def roundStep (st : Digest) (kw : Nat × Nat) : Digest :=
  let ch := (st.e4 &&& st.e5) ^^^ ((st.e4 ^^^ (2 ^ 32 - 1)) &&& st.e6)
  let t1 := (st.e7 + bigSigma1 st.e4 + ch + kw.1 + kw.2) % 2 ^ 32
  let maj := (st.e0 &&& st.e1) ^^^ (st.e0 &&& st.e2) ^^^ (st.e1 &&& st.e2)
  let t2 := (bigSigma0 st.e0 + maj) % 2 ^ 32
  ⟨(t1 + t2) % 2 ^ 32, st.e0, st.e1, st.e2, (st.e3 + t1) % 2 ^ 32, st.e4, st.e5, st.e6⟩

/-- Extend the 16 chunk words to the 64 schedule words. -/
def messageSchedule (ws : List Nat) : List Nat :=
  (List.range 48).foldl (fun w _ =>
    let n := w.length
    w ++ [(smallSigma1 (w.getD (n - 2) 0) + w.getD (n - 7) 0 +
           smallSigma0 (w.getD (n - 15) 0) + w.getD (n - 16) 0) % 2 ^ 32]) ws

/-- Big-endian word from a list of bytes. -/
def bytesToWord (bs : List Nat) : Nat := bs.foldl (fun a b => a * 256 + b) 0

/-- The 16 big-endian 32-bit words of one 64-byte chunk. -/
def chunkWords (chunk : List Nat) : List Nat :=
  (List.range 16).map (fun i => bytesToWord ((chunk.drop (4 * i)).take 4))

/-- Compress one 64-byte chunk into the running state. -/
def compress (hs : Digest) (chunk : List Nat) : Digest :=
  let w := messageSchedule (chunkWords chunk)
  let st := (K256.zip w).foldl roundStep hs
  ⟨(hs.e0 + st.e0) % 2 ^ 32, (hs.e1 + st.e1) % 2 ^ 32, (hs.e2 + st.e2) % 2 ^ 32,
   (hs.e3 + st.e3) % 2 ^ 32, (hs.e4 + st.e4) % 2 ^ 32, (hs.e5 + st.e5) % 2 ^ 32,
   (hs.e6 + st.e6) % 2 ^ 32, (hs.e7 + st.e7) % 2 ^ 32⟩

/-- SHA-256 padding: the 0x80 byte, zeros to 56 mod 64, and the 64-bit
big-endian bit length. -/
def padMessage (msg : List Nat) : List Nat :=
  msg ++ 0x80 :: List.replicate ((119 - msg.length % 64) % 64) 0 ++
    (List.range 8).map (fun i => ((8 * msg.length) >>> (8 * (7 - i))) % 256)

/-- Split a padded message into its 64-byte chunks. -/
def toChunks (l : List Nat) : List (List Nat) :=
  (List.range (l.length / 64)).map (fun i => (l.drop (64 * i)).take 64)

/-- The final SHA-256 state over a byte message. -/
def sha256Words (msg : List Nat) : Digest :=
  (toChunks (padMessage msg)).foldl compress initialDigest

/-- The 256-bit digest as one Nat (big-endian concatenation of the eight
words). -/
def digestNat (d : Digest) : Nat :=
  ((((((d.e0 * 2 ^ 32 + d.e1) * 2 ^ 32 + d.e2) * 2 ^ 32 + d.e3) * 2 ^ 32 + d.e4) * 2 ^ 32 +
    d.e5) * 2 ^ 32 + d.e6) * 2 ^ 32 + d.e7

/-- Every word of the state is below 2 ^ 32. -/
def DigestBounded (d : Digest) : Prop :=
  d.e0 < 2 ^ 32 ∧ d.e1 < 2 ^ 32 ∧ d.e2 < 2 ^ 32 ∧ d.e3 < 2 ^ 32 ∧
  d.e4 < 2 ^ 32 ∧ d.e5 < 2 ^ 32 ∧ d.e6 < 2 ^ 32 ∧ d.e7 < 2 ^ 32

/-- UTF-8 encoding of one character (what Python str.encode produces per
code point). -/
def utf8Bytes (c : Char) : List Nat :=
  let n := c.toNat
  if n < 0x80 then [n]
  else if n < 0x800 then [0xC0 ||| (n >>> 6), 0x80 ||| (n &&& 0x3F)]
  else if n < 0x10000 then
    [0xE0 ||| (n >>> 12), 0x80 ||| ((n >>> 6) &&& 0x3F), 0x80 ||| (n &&& 0x3F)]
  else
    [0xF0 ||| (n >>> 18), 0x80 ||| ((n >>> 12) &&& 0x3F),
     0x80 ||| ((n >>> 6) &&& 0x3F), 0x80 ||| (n &&& 0x3F)]

/-- UTF-8 bytes of a string (password.encode()). -/
def strEncode (s : String) : List Nat := s.data.foldr (fun c acc => utf8Bytes c ++ acc) []

/-- Lowercase hexadecimal digit. -/
def hexChar (n : Nat) : Char := if n < 10 then Char.ofNat (48 + n) else Char.ofNat (87 + n)

/-- The 64-character lowercase hexadecimal rendering of a 256-bit number
(hexdigest of the digest). -/
def hexOfDigest (n : Nat) : String :=
  String.mk ((List.range 64).map (fun i => hexChar ((n >>> (4 * (63 - i))) % 16)))

/-- src/main.py lines 65-66: the unsalted SHA-256 hex digest of the
password. -/
def hash_password (password : String) : String :=
  hexOfDigest (digestNat (sha256Words (strEncode password)))

/-! ## Data model (src/main.py collections and session state) -/

/-- One document of the users collection (src/main.py line 71). -/
structure UserRec where
  username : String
  password : String
deriving DecidableEq

/-- One document of the chat_history collection (src/main.py lines 129-134). -/
structure Message where
  role : String
  text : String
  timestamp : Nat
  username : Option String
deriving DecidableEq

/-- One entry of the in-memory st.session_state.messages list; the retrieved
field is the optional debug annotation of line 196. -/
structure ViewMsg where
  role : String
  text : String
  retrieved : Option (List String)
deriving DecidableEq

/-- The whole mutable state: the Streamlit session state (logged_in,
username, chat_session handle, messages) together with the two MongoDB
collections. The chat_session handle is embedded by its identity, which is
all the claims inspect of it. -/
structure AppState where
  logged_in : Bool
  username : Option String
  chat_session : Nat
  messages : List ViewMsg
  chat_history : List Message
  users : List UserRec
deriving DecidableEq

/-! ## Credential store operations (src/main.py lines 69-97) -/

/-- user_collection.find_one with a username filter (src/main.py line 93):
first match in insertion order. -/
def find_user (users : List UserRec) (username : String) : Option UserRec :=
  users.find? (fun r => r.username == username)

/-- src/main.py lines 69-72: insert a user document carrying the hashed
password. -/
def register_user (users : List UserRec) (username password : String) : List UserRec :=
  users ++ [⟨username, hash_password password⟩]

/-- src/main.py lines 75-78: recompute the digest and look for a document
matching both username and digest. -/
def authenticate_user (users : List UserRec) (username password : String) : Bool :=
  (users.find? (fun r => r.username == username && r.password == hash_password password)).isSome

/-- The effect of the Register button (src/main.py lines 92-97) on the users
collection: refuse when the username exists, insert otherwise. -/
def registerStep (users : List UserRec) (username password : String) : List UserRec :=
  if (find_user users username).isSome then users else register_user users username password

/-- The Register button handler (src/main.py lines 92-97): the new state and
whether registration succeeded (false renders the Username already exists
error). -/
def registerHandler (a : AppState) (username password : String) : AppState × Bool :=
  if (find_user a.users username).isSome then (a, false)
  else ({ a with users := register_user a.users username password }, true)

/-- The Login button handler (src/main.py lines 101-107). -/
def loginHandler (a : AppState) (username password : String) : AppState :=
  if authenticate_user a.users username password then
    { a with logged_in := true, username := some username }
  else a

/-- The Logout button handler (src/main.py lines 110-113): it assigns only
logged_in and username; the messages list, the chat_session handle and both
collections are left as they are. -/
def logoutHandler (a : AppState) : AppState :=
  { a with logged_in := false, username := none }

/-- Users collections reachable from the empty collection through the
Register button. -/
inductive ReachableUsers : List UserRec → Prop where
  | nil : ReachableUsers []
  | step (us : List UserRec) (u p : String) :
      ReachableUsers us → ReachableUsers (registerStep us u p)

/-! ## Message store operations (src/main.py lines 128-141, 166-173) -/

/-- src/main.py lines 128-135: append one document with the session
username and the current time. -/
def store_message (username : Option String) (now : Nat) (role text : String)
    (chat_history : List Message) : List Message :=
  chat_history ++ [⟨role, text, now, username⟩]

/-- Stable insertion into a list sorted by timestamp descending; ties keep
the earlier-inserted document first. -/
def insertDesc (m : Message) : List Message → List Message
  | [] => [m]
  | x :: xs => if x.timestamp ≤ m.timestamp then m :: x :: xs else x :: insertDesc m xs

/-- The Mongo sort on timestamp, descending. MongoDB leaves the order of
documents with equal timestamps unspecified; the embedding determinizes it
as a stable sort on insertion order, and only tie-independent properties
are claimed of it. -/
def sortDesc (l : List Message) : List Message := l.foldr insertDesc []

/-- Stable insertion into a list sorted by timestamp ascending. -/
def insertAsc (m : Message) : List Message → List Message
  | [] => [m]
  | x :: xs => if m.timestamp ≤ x.timestamp then m :: x :: xs else x :: insertAsc m xs

/-- The Mongo sort on timestamp, ascending (sidebar history display). -/
def sortAsc (l : List Message) : List Message := l.foldr insertAsc []

/-- src/main.py line 140 before the limit and projection: filter the
collection by session username and the text-search predicate tmatch, sort
by timestamp descending, keep the first 5 documents. -/
def retrieve_docs (tmatch : String → String → Bool) (username : Option String) (query : String)
    (chat_history : List Message) : List Message :=
  (sortDesc (chat_history.filter (fun m => m.username == username && tmatch query m.text))).take 5

/-- src/main.py lines 139-141: the texts of the retrieved documents. -/
def retrieve_relevant_messages (tmatch : String → String → Bool) (username : Option String)
    (query : String) (chat_history : List Message) : List String :=
  (retrieve_docs tmatch username query chat_history).map (fun m => m.text)

/-- collection.count_documents with the username filter (src/main.py
line 169). -/
def count_documents_user (username : Option String) (chat_history : List Message) : Nat :=
  (chat_history.filter (fun m => m.username == username)).length

/-- The sidebar history of src/main.py lines 168-173: when the user has
documents, the collection filtered by username and sorted by timestamp
ascending; nothing otherwise. -/
def sidebar_history (a : AppState) : List Message :=
  if 0 < count_documents_user a.username a.chat_history then
    sortAsc (a.chat_history.filter (fun m => m.username == a.username))
  else []

/-! ## The submit block (src/main.py lines 183-212)

The block is embedded as one function over AppState, with its intermediate
values exposed as definitions following the straight-line source: db1 is
the collection right after the user document is stored (line 185), then the
retrieval runs on db1 (line 191), the combined prompt is built (lines
192-193), the external call is made with its failure branch (lines
199-203), and the assistant document is stored (line 206). tu and ta are
the two datetime.now() readings of lines 185 and 206. -/

/-- src/main.py lines 192-193: context is the retrieved texts joined by
single spaces, and the f-string places one space between context and the
new text. -/
def combined_prompt (relevant_messages : List String) (user_prompt : String) : String :=
  let context := String.intercalate " " relevant_messages
  context ++ " " ++ user_prompt

/-- The collection after line 185 stored the user document. -/
def submit_db1 (tu : Nat) (a : AppState) (user_prompt : String) : List Message :=
  store_message a.username tu "user" user_prompt a.chat_history

/-- Line 191: retrieval against the collection that already holds the new
user document. -/
def submit_relevant (tmatch : String → String → Bool) (tu : Nat) (a : AppState)
    (user_prompt : String) : List String :=
  retrieve_relevant_messages tmatch a.username user_prompt (submit_db1 tu a user_prompt)

/-- Lines 192-193: the augmented prompt sent to the external model. -/
def submit_combined (tmatch : String → String → Bool) (tu : Nat) (a : AppState)
    (user_prompt : String) : String :=
  combined_prompt (submit_relevant tmatch tu a user_prompt) user_prompt

/-- Lines 199-203: the reply text, either the model reply or the synthetic
Error text built from the caught failure description. -/
def submit_response (tmatch : String → String → Bool) (send : String → Except String String)
    (tu : Nat) (a : AppState) (user_prompt : String) : String :=
  match send (submit_combined tmatch tu a user_prompt) with
  | Except.ok r => r
  | Except.error e => "Error: " ++ e

/-- The whole submit block, lines 183-212: persist the user document, append
the user entry, retrieve, append the system debug entry, call the model,
persist the assistant document, append the assistant entry. -/
def submit (tmatch : String → String → Bool) (send : String → Except String String)
    (tu ta : Nat) (a : AppState) (user_prompt : String) : AppState :=
  { a with
    chat_history := store_message a.username ta "assistant"
      (submit_response tmatch send tu a user_prompt) (submit_db1 tu a user_prompt),
    messages := a.messages ++
      [⟨"user", user_prompt, none⟩,
       ⟨"system", submit_combined tmatch tu a user_prompt,
        some (submit_relevant tmatch tu a user_prompt)⟩,
       ⟨"assistant", submit_response tmatch send tu a user_prompt, none⟩] }

/-! ## Helper lemmas: the stable descending sort -/

theorem mem_insertDesc (x m : Message) (l : List Message) :
    x ∈ insertDesc m l ↔ x = m ∨ x ∈ l := by
  induction l with
  | nil => simp [insertDesc]
  | cons y ys ih =>
    by_cases h : y.timestamp ≤ m.timestamp
    · simp [insertDesc, h]
    · simp only [insertDesc, if_neg h, List.mem_cons, ih]
      tauto

theorem pairwise_insertDesc (m : Message) (l : List Message)
    (h : List.Pairwise (fun a b => b.timestamp ≤ a.timestamp) l) :
    List.Pairwise (fun a b => b.timestamp ≤ a.timestamp) (insertDesc m l) := by
  induction l with
  | nil => simp [insertDesc]
  | cons y ys ih =>
    rcases List.pairwise_cons.mp h with ⟨hy, hys⟩
    by_cases hc : y.timestamp ≤ m.timestamp
    · simp only [insertDesc, if_pos hc]
      refine List.Pairwise.cons ?_ h
      intro z hz
      rcases List.mem_cons.mp hz with rfl | hz2
      · exact hc
      · exact le_trans (hy z hz2) hc
    · simp only [insertDesc, if_neg hc]
      refine List.Pairwise.cons ?_ (ih hys)
      intro z hz
      rcases (mem_insertDesc z m ys).mp hz with rfl | hz2
      · exact le_of_lt (Nat.lt_of_not_le hc)
      · exact hy z hz2

theorem sortDesc_pairwise (l : List Message) :
    List.Pairwise (fun a b => b.timestamp ≤ a.timestamp) (sortDesc l) := by
  induction l with
  | nil => simp [sortDesc]
  | cons y ys ih => exact pairwise_insertDesc y (sortDesc ys) ih

theorem mem_sortDesc (x : Message) (l : List Message) : x ∈ sortDesc l ↔ x ∈ l := by
  induction l with
  | nil => simp [sortDesc]
  | cons y ys ih =>
    show x ∈ insertDesc y (sortDesc ys) ↔ _
    rw [mem_insertDesc]
    simp [ih]

theorem sortDesc_cons_of_strict_max (l : List Message) (m : Message) (hm : m ∈ l)
    (hmax : ∀ x ∈ l, x = m ∨ x.timestamp < m.timestamp) :
    ∃ rest, sortDesc l = m :: rest := by
  cases hs : sortDesc l with
  | nil =>
    have := (mem_sortDesc m l).mpr hm
    rw [hs] at this
    simp at this
  | cons h rest =>
    have hhl : h ∈ l := (mem_sortDesc h l).mp (by rw [hs]; exact List.mem_cons_self h rest)
    have hp := sortDesc_pairwise l
    rw [hs] at hp
    have hm2 : m ∈ h :: rest := by rw [← hs]; exact (mem_sortDesc m l).mpr hm
    rcases List.mem_cons.mp hm2 with rfl | hmr
    · exact ⟨rest, rfl⟩
    · have hle : m.timestamp ≤ h.timestamp := (List.pairwise_cons.mp hp).1 m hmr
      rcases hmax h hhl with rfl | hlt
      · exact ⟨rest, rfl⟩
      · exact absurd (lt_of_lt_of_le hlt hle) (lt_irrefl _)

/-! ## Helper lemmas: bounds on the digest and existence of collisions -/

theorem compress_bounded (hs : Digest) (chunk : List Nat) : DigestBounded (compress hs chunk) := by
  unfold compress DigestBounded
  refine ⟨?_, ?_, ?_, ?_, ?_, ?_, ?_, ?_⟩ <;> exact Nat.mod_lt _ (by norm_num)

theorem foldl_compress_bounded (chunks : List (List Nat)) (d : Digest)
    (hd : DigestBounded d) : DigestBounded (chunks.foldl compress d) := by
  induction chunks generalizing d with
  | nil => exact hd
  | cons c cs ih =>
    rw [List.foldl_cons]
    exact ih (compress d c) (compress_bounded d c)

theorem sha256Words_bounded (msg : List Nat) : DigestBounded (sha256Words msg) :=
  foldl_compress_bounded (toChunks (padMessage msg)) initialDigest (by
    unfold DigestBounded initialDigest
    norm_num)

theorem word_append_lt (a b A : Nat) (ha : a < A) (hb : b < 2 ^ 32) :
    a * 2 ^ 32 + b < A * 2 ^ 32 :=
  calc a * 2 ^ 32 + b < a * 2 ^ 32 + 2 ^ 32 := Nat.add_lt_add_left hb _
    _ = (a + 1) * 2 ^ 32 := by ring
    _ ≤ A * 2 ^ 32 := Nat.mul_le_mul_right _ ha

theorem digestNat_lt (d : Digest) (h : DigestBounded d) : digestNat d < 2 ^ 256 := by
  obtain ⟨h0, h1, h2, h3, h4, h5, h6, h7⟩ := h
  have s1 := word_append_lt _ _ _ h0 h1
  have s2 := word_append_lt _ _ _ s1 h2
  have s3 := word_append_lt _ _ _ s2 h3
  have s4 := word_append_lt _ _ _ s3 h4
  have s5 := word_append_lt _ _ _ s4 h5
  have s6 := word_append_lt _ _ _ s5 h6
  have s7 := word_append_lt _ _ _ s6 h7
  unfold digestNat
  calc ((((((d.e0 * 2 ^ 32 + d.e1) * 2 ^ 32 + d.e2) * 2 ^ 32 + d.e3) * 2 ^ 32 + d.e4) * 2 ^ 32 +
        d.e5) * 2 ^ 32 + d.e6) * 2 ^ 32 + d.e7 <
      2 ^ 32 * 2 ^ 32 * 2 ^ 32 * 2 ^ 32 * 2 ^ 32 * 2 ^ 32 * 2 ^ 32 * 2 ^ 32 := s7
    _ = 2 ^ 256 := by norm_num

theorem hash_collision_exists : ∃ a b : String, a ≠ b ∧ hash_password a = hash_password b := by
  haveI : Infinite String :=
    Infinite.of_injective (fun n : Nat => String.mk (List.replicate n 'a'))
      (by
        intro m n h
        have h2 := congrArg String.length h
        simpa [String.length] using h2)
  obtain ⟨x, y, hne, heq⟩ := Finite.exists_ne_map_eq_of_infinite
    (fun s : String =>
      (⟨digestNat (sha256Words (strEncode s)),
        digestNat_lt _ (sha256Words_bounded (strEncode s))⟩ : Fin (2 ^ 256)))
  refine ⟨x, y, hne, ?_⟩
  have hval : digestNat (sha256Words (strEncode x)) = digestNat (sha256Words (strEncode y)) :=
    congrArg Fin.val heq
  unfold hash_password
  rw [hval]

/-! ## Claim theorems -/

/-- C1 (amended): a completed submit persists exactly 2 new Message
documents — one user-role, then one assistant-role — regardless of whether
the external model call succeeds or fails, and appends exactly 3 entries to
the in-memory view (user, system debug, assistant); the system debug entry
is appended only to the in-memory view and is not persisted. -/
theorem submit_two_persisted_three_in_view (tmatch : String → String → Bool)
    (send : String → Except String String) (tu ta : Nat) (a : AppState) (t : String) :
    (submit tmatch send tu ta a t).chat_history =
      a.chat_history ++ [⟨"user", t, tu, a.username⟩,
        ⟨"assistant", submit_response tmatch send tu a t, ta, a.username⟩] ∧
    (submit tmatch send tu ta a t).messages =
      a.messages ++ [⟨"user", t, none⟩,
        ⟨"system", submit_combined tmatch tu a t, some (submit_relevant tmatch tu a t)⟩,
        ⟨"assistant", submit_response tmatch send tu a t, none⟩] := by
  constructor
  · show store_message a.username ta "assistant" (submit_response tmatch send tu a t)
      (submit_db1 tu a t) = _
    simp [store_message, submit_db1]
  · rfl

/-- C1 counterexample: at a concrete submit over an empty store the
collection ends with 2 documents, not the 3 new persisted Messages the
claim states. -/
theorem submit_not_three_persisted :
    ¬ ((submit (fun _ _ => true) (fun _ => Except.ok "reply") 0 1
        ⟨true, some "alice", 0, [], [], []⟩ "hello").chat_history.length = 3) := by
  decide

/-- C7: the augmented prompt equals the retrieved texts joined by single
spaces, followed by one space, followed by the new user text; the retrieved
list enters whole (no deduplication, no truncation), it is exactly the
retrieval result on the store holding the new user document, and the reply
is computed by sending exactly this augmented prompt to the external
model. -/
theorem augmented_prompt_shape (tmatch : String → String → Bool)
    (send : String → Except String String) (tu : Nat) (a : AppState) (t : String) :
    submit_combined tmatch tu a t =
      String.intercalate " " (submit_relevant tmatch tu a t) ++ " " ++ t ∧
    submit_relevant tmatch tu a t =
      retrieve_relevant_messages tmatch a.username t
        (store_message a.username tu "user" t a.chat_history) ∧
    submit_response tmatch send tu a t =
      (match send (submit_combined tmatch tu a t) with
       | Except.ok r => r
       | Except.error e => "Error: " ++ e) :=
  ⟨rfl, rfl, rfl⟩

/-- C2: retrieval returns at most 5 texts, every returned text is the text
of a stored document whose username field is the queried user and whose
text matches the query under the text-search predicate, and the retrieved
documents are ordered by timestamp descending. -/
theorem retrieve_bounded_scoped_sorted (tmatch : String → String → Bool) (u : String)
    (q : String) (db : List Message) :
    (retrieve_relevant_messages tmatch (some u) q db).length ≤ 5 ∧
    (∀ x ∈ retrieve_relevant_messages tmatch (some u) q db,
      ∃ m ∈ db, m.username = some u ∧ tmatch q m.text = true ∧ m.text = x) ∧
    List.Pairwise (fun a b => b.timestamp ≤ a.timestamp) (retrieve_docs tmatch (some u) q db) := by
  refine ⟨?_, ?_, ?_⟩
  · rw [retrieve_relevant_messages, List.length_map, retrieve_docs]
    exact List.length_take_le 5 _
  · intro x hx
    rw [retrieve_relevant_messages] at hx
    obtain ⟨m, hm, rfl⟩ := List.mem_map.mp hx
    rw [retrieve_docs] at hm
    have hmem : m ∈ sortDesc (db.filter (fun m => m.username == some u && tmatch q m.text)) :=
      List.mem_of_mem_take hm
    have hmem2 := (mem_sortDesc m _).mp hmem
    obtain ⟨hmdb, hcond⟩ := List.mem_filter.mp hmem2
    obtain ⟨h1, h2⟩ := Bool.and_eq_true_iff.mp hcond
    exact ⟨m, hmdb, by simpa using h1, h2, rfl⟩
  · rw [retrieve_docs]
    exact (sortDesc_pairwise _).sublist (List.take_sublist 5 _)

/-- C3 (amended): logout resets only the login flag and the username — the
in-memory view of turns and the external model conversation handle are left
in session state, not discarded — and both persisted collections are
untouched; after logging back in, the sidebar history is computed by
querying the untouched store and equals what the original logged-in state
displays. -/
theorem logout_frame_and_relogin (a : AppState) (u p : String)
    (hauth : authenticate_user a.users u p = true) :
    (logoutHandler a).messages = a.messages ∧
    (logoutHandler a).chat_session = a.chat_session ∧
    (logoutHandler a).logged_in = false ∧
    (logoutHandler a).username = none ∧
    (logoutHandler a).chat_history = a.chat_history ∧
    (logoutHandler a).users = a.users ∧
    (loginHandler (logoutHandler a) u p).chat_history = a.chat_history ∧
    sidebar_history (loginHandler (logoutHandler a) u p) =
      sidebar_history { a with logged_in := true, username := some u } := by
  have hst : loginHandler (logoutHandler a) u p =
      { a with logged_in := true, username := some u } := by
    simp [loginHandler, logoutHandler, hauth]
  refine ⟨rfl, rfl, rfl, rfl, rfl, rfl, ?_, ?_⟩
  · rw [hst]
  · rw [hst]

/-- C3 counterexample: at a concrete state, logout keeps the nonempty
in-memory view and the conversation handle instead of discarding them. -/
theorem logout_keeps_view_and_handle :
    (logoutHandler ⟨true, some "alice", 7, [⟨"user", "hi", none⟩], [], []⟩).messages =
      [⟨"user", "hi", none⟩] ∧
    (logoutHandler ⟨true, some "alice", 7, [⟨"user", "hi", none⟩], [], []⟩).chat_session = 7 ∧
    ([(⟨"user", "hi", none⟩ : ViewMsg)] : List ViewMsg) ≠ [] := by
  refine ⟨rfl, rfl, by decide⟩

/-- C4: a failure of the external model call is caught and becomes a
synthetic assistant reply whose text embeds the failure description; the
reply is persisted and appended to the in-memory view exactly like a normal
reply, so the submit completes with the same shape of state growth. -/
theorem model_failure_recovered (tmatch : String → String → Bool)
    (send : String → Except String String) (tu ta : Nat) (a : AppState) (t e : String)
    (hfail : send (submit_combined tmatch tu a t) = Except.error e) :
    submit_response tmatch send tu a t = "Error: " ++ e ∧
    (submit tmatch send tu ta a t).chat_history =
      a.chat_history ++ [⟨"user", t, tu, a.username⟩,
        ⟨"assistant", "Error: " ++ e, ta, a.username⟩] ∧
    (submit tmatch send tu ta a t).messages =
      a.messages ++ [⟨"user", t, none⟩,
        ⟨"system", submit_combined tmatch tu a t, some (submit_relevant tmatch tu a t)⟩,
        ⟨"assistant", "Error: " ++ e, none⟩] := by
  have hresp : submit_response tmatch send tu a t = "Error: " ++ e := by
    unfold submit_response
    rw [hfail]
  refine ⟨hresp, ?_, ?_⟩
  · show store_message a.username ta "assistant" (submit_response tmatch send tu a t)
      (submit_db1 tu a t) = _
    rw [hresp]
    simp [store_message, submit_db1]
  · show a.messages ++ _ = _
    rw [hresp]

/-- C4 witness: a concrete failing call is converted into the synthetic
Error reply. -/
theorem model_failure_recovered_witness :
    submit_response (fun _ _ => true) (fun _ => Except.error "boom") 0
      ⟨true, some "alice", 0, [], [], []⟩ "hi" = "Error: " ++ "boom" :=
  (model_failure_recovered (fun _ _ => true) (fun _ => Except.error "boom") 0 1
    ⟨true, some "alice", 0, [], [], []⟩ "hi" "boom" rfl).1

/-- C5: registering a username that already has a User document is rejected
with the whole state unchanged, and every users collection reachable from
the empty one through the Register button holds at most one document per
username. -/
theorem register_unique (a : AppState) (u p : String) (us : List UserRec) (n : String)
    (htaken : (find_user a.users u).isSome = true) (hreach : ReachableUsers us) :
    registerHandler a u p = (a, false) ∧
    (us.filter (fun r => r.username == n)).length ≤ 1 := by
  refine ⟨by simp [registerHandler, htaken], ?_⟩
  induction hreach with
  | nil => simp
  | step us2 u2 p2 h2 ih =>
    unfold registerStep
    by_cases hex : (find_user us2 u2).isSome = true
    · simpa [hex] using ih
    · rw [if_neg hex]
      unfold register_user
      rw [List.filter_append]
      by_cases hn : u2 = n
      · subst hn
        have hfil : us2.filter (fun r => r.username == u2) = [] := by
          rw [List.filter_eq_nil_iff]
          intro r hr
          have hnone : us2.find? (fun r => r.username == u2) = none :=
            Option.not_isSome_iff_eq_none.mp hex
          have := List.find?_eq_none.mp hnone r hr
          simpa using this
        simp [hfil]
      · have hfil2 : ([(⟨u2, hash_password p2⟩ : UserRec)].filter
            (fun r => r.username == n)) = [] := by
          simp [hn]
        rw [hfil2]
        simpa using ih

/-- C5 witness: a concrete taken username is rejected unchanged, and a
concrete reachable collection has at most one document for the name. -/
theorem register_unique_witness :
    registerHandler ⟨false, none, 0, [], [], [⟨"bob", "d"⟩]⟩ "bob" "x" =
      (⟨false, none, 0, [], [], [⟨"bob", "d"⟩]⟩, false) ∧
    ((registerStep [] "bob" "pw1").filter (fun r => r.username == "bob")).length ≤ 1 :=
  register_unique ⟨false, none, 0, [], [], [⟨"bob", "d"⟩]⟩ "bob" "x"
    (registerStep [] "bob" "pw1") "bob" (by decide)
    (ReachableUsers.step [] "bob" "pw1" ReachableUsers.nil)

/-- C9: the user document is stored before retrieval runs, so when the
submitted text matches its own query under the text-search predicate and
carries a timestamp newer than everything stored, the just-stored text
itself is retrieved as the most recent match, heading the retrieved context
of its own augmented prompt. -/
theorem self_retrieval_most_recent (tmatch : String → String → Bool) (tu : Nat)
    (a : AppState) (t : String) (hself : tmatch t t = true)
    (hnew : ∀ m ∈ a.chat_history, m.timestamp < tu) :
    (submit_relevant tmatch tu a t).head? = some t := by
  have hfil : (submit_db1 tu a t).filter
        (fun m => m.username == a.username && tmatch t m.text) =
      a.chat_history.filter (fun m => m.username == a.username && tmatch t m.text) ++
        [⟨"user", t, tu, a.username⟩] := by
    unfold submit_db1 store_message
    rw [List.filter_append]
    simp [hself]
  have hm : (⟨"user", t, tu, a.username⟩ : Message) ∈
      a.chat_history.filter (fun m => m.username == a.username && tmatch t m.text) ++
        [⟨"user", t, tu, a.username⟩] := by
    simp
  have hmax : ∀ x ∈ a.chat_history.filter (fun m => m.username == a.username && tmatch t m.text) ++
        [⟨"user", t, tu, a.username⟩],
      x = (⟨"user", t, tu, a.username⟩ : Message) ∨
        x.timestamp < (⟨"user", t, tu, a.username⟩ : Message).timestamp := by
    intro x hx
    rcases List.mem_append.mp hx with hx1 | hx2
    · exact Or.inr (hnew x (List.mem_of_mem_filter hx1))
    · exact Or.inl (by simpa using hx2)
  obtain ⟨rest, hsort⟩ := sortDesc_cons_of_strict_max _ _ hm hmax
  show (List.map (fun m => m.text) ((sortDesc ((submit_db1 tu a t).filter
    (fun m => m.username == a.username && tmatch t m.text))).take 5)).head? = some t
  rw [hfil, hsort]
  rfl

/-- C9 witness: a concrete fresh submit retrieves its own text as the head
of the retrieved context. -/
theorem self_retrieval_most_recent_witness :
    (submit_relevant (fun _ _ => true) 1 ⟨true, some "alice", 0, [], [], []⟩ "hello").head? =
      some "hello" :=
  self_retrieval_most_recent (fun _ _ => true) 1 ⟨true, some "alice", 0, [], [], []⟩ "hello"
    rfl (by simp)

/-- C10: hash_password is the unsalted SHA-256 hex digest, a pure function
of the password alone: registrations with the same password store
byte-for-byte identical digests whatever the username or prior collection,
and equal stored digests mean the hash was applied to colliding
passwords. -/
theorem hash_unsalted_deterministic (us1 us2 : List UserRec) (u1 u2 p p1 p2 : String)
    (heq : ((register_user us1 u1 p1).getLast?).map UserRec.password =
      ((register_user us2 u2 p2).getLast?).map UserRec.password) :
    hash_password p = hexOfDigest (digestNat (sha256Words (strEncode p))) ∧
    ((register_user us1 u1 p).getLast?).map UserRec.password =
      ((register_user us2 u2 p).getLast?).map UserRec.password ∧
    hash_password p1 = hash_password p2 := by
  have hlast : ∀ (us : List UserRec) (v q : String),
      ((register_user us v q).getLast?).map UserRec.password = some (hash_password q) := by
    intro us v q
    unfold register_user
    rw [List.getLast?_concat]
    rfl
  refine ⟨rfl, ?_, ?_⟩
  · rw [hlast, hlast]
  · rw [hlast, hlast] at heq
    simpa using heq

/-- C10 witness: two registrations of the same password by different
usernames store the same digest. -/
theorem hash_unsalted_deterministic_witness :
    hash_password "pw1" = hexOfDigest (digestNat (sha256Words (strEncode "pw1"))) ∧
    ((register_user [] "alice" "pw1").getLast?).map UserRec.password =
      ((register_user [] "bob" "pw1").getLast?).map UserRec.password ∧
    hash_password "pw1" = hash_password "pw1" :=
  hash_unsalted_deterministic [] [] "alice" "bob" "pw1" "pw1" "pw1" rfl

/-- C6 (amended): after registering a fresh username, authentication with
the registered password succeeds, and authentication with any other
password whose SHA-256 digest differs from the registered digest fails —
the digest comparison, not the passwords themselves, is what the code
checks, so only digest-colliding passwords are interchangeable. -/
theorem authenticate_of_registered (us : List UserRec) (u p other : String)
    (hfresh : find_user us u = none)
    (hdiff : hash_password other ≠ hash_password p) :
    authenticate_user (register_user us u p) u p = true ∧
    authenticate_user (register_user us u p) u other = false := by
  constructor
  · have hmem : (⟨u, hash_password p⟩ : UserRec) ∈ register_user us u p := by
      simp [register_user]
    have hp : ((⟨u, hash_password p⟩ : UserRec).username == u &&
        (⟨u, hash_password p⟩ : UserRec).password == hash_password p) = true := by
      simp
    unfold authenticate_user
    exact List.find?_isSome.mpr ⟨_, hmem, hp⟩
  · unfold authenticate_user
    have hnone : (register_user us u p).find?
        (fun r => r.username == u && r.password == hash_password other) = none := by
      rw [List.find?_eq_none]
      intro r hr
      rcases List.mem_append.mp hr with hr1 | hr2
      · have hfr := List.find?_eq_none.mp hfresh r hr1
        simp only [Bool.and_eq_true, beq_iff_eq, not_and]
        intro h1
        exact absurd (by simp [h1]) hfr
      · have hr3 : r = ⟨u, hash_password p⟩ := by simpa using hr2
        subst hr3
        simp only [Bool.and_eq_true, beq_iff_eq, not_and]
        intro _ h2
        exact hdiff h2.symm
    rw [hnone]
    rfl

set_option maxRecDepth 10000 in
/-- C6 witness: a concrete registration authenticates with its password and
rejects another password with a different digest. -/
theorem authenticate_of_registered_witness :
    authenticate_user (register_user [] "bob" "pw1") "bob" "pw1" = true ∧
    authenticate_user (register_user [] "bob" "pw1") "bob" "pw2" = false :=
  authenticate_of_registered [] "bob" "pw1" "pw2" rfl (by decide)

/-- C6 counterexample: it is not true that every password other than the
registered one authenticates to false: the comparison identifies passwords
with equal unsalted SHA-256 digests, and the digest function, mapping
infinitely many strings into finitely many 64-digit hex strings, has
colliding pairs. -/
theorem authenticate_claim_false :
    ¬ ∀ (u p other : String), other ≠ p →
        authenticate_user (register_user [] u p) u other = false := by
  intro hall
  obtain ⟨x, y, hne, heq⟩ := hash_collision_exists
  have hfalse := hall "u" x y (Ne.symm hne)
  have htrue : authenticate_user (register_user [] "u" x) "u" y = true := by
    unfold authenticate_user register_user
    simp [List.find?, heq]
  rw [htrue] at hfalse
  exact absurd hfalse (by decide)

set_option maxRecDepth 10000 in
/-- Validation of the SHA-256 embedding against the standard test vectors
(the digests hashlib produces for the same inputs). -/
theorem hash_password_matches_sha256_vectors :
    hash_password "abc" = "ba7816bf8f01cfea414140de5dae2223b00361a396177a9cb410ff61f20015ad" ∧
    hash_password "" = "e3b0c44298fc1c149afbf4c8996fb92427ae41e4649b934ca495991b7852b855" :=
  ⟨by decide, by decide⟩

set_option maxRecDepth 10000 in
/-- C3 witness: a concrete logged-in state with a registered user keeps its
in-memory view across logout. -/
theorem logout_frame_and_relogin_witness :
    (logoutHandler ⟨true, some "bob", 3, [⟨"user", "hi", none⟩], [],
        [⟨"bob", hash_password "pw1"⟩]⟩).messages = [⟨"user", "hi", none⟩] :=
  (logout_frame_and_relogin
    ⟨true, some "bob", 3, [⟨"user", "hi", none⟩], [], [⟨"bob", hash_password "pw1"⟩]⟩
    "bob" "pw1" (by decide)).1
